import Mathlib

/-!
Verification development for the inquiry chatbot backend (src/main.py).

The service keeps an in-memory conversation store (a Python dict mapping a
conversation id to a message history), forwards histories to a language
model, and scans the model's reply for the marker phrase
"here's your refined query:" to decide whether the conversation is finished.

Python strings are embedded as `List Char` (ASCII case mapping suffices for
every string the program matches on).  Each definition carries a comment
naming the lines of src/main.py it embeds.
-/

set_option maxRecDepth 4000

namespace Inquiry

/-- Python string contents as a list of characters. -/
abbrev Text := List Char

/-- Python whitespace as matched by `str.strip()` and the regex class r"\s"
on the program's ASCII data: space, tab, newline, carriage return, form
feed, vertical tab. -/
def isWS (c : Char) : Bool :=
  c = ' ' || c = '\t' || c = '\n' || c = '\r' || c = '\x0b' || c = '\x0c'

/-- `str.lower()` (ASCII case mapping). -/
def lower (s : Text) : Text := s.map Char.toLower

/-- `str.lstrip()`. -/
def lstrip (s : Text) : Text := s.dropWhile isWS

/-- `str.rstrip()`. -/
def rstrip (s : Text) : Text := (s.reverse.dropWhile isWS).reverse

/-- `str.strip()`. -/
def strip (s : Text) : Text := rstrip (lstrip s)

/-- `str.rstrip('\n')` (src/main.py line 138/241). -/
def rstripNL (s : Text) : Text := (s.reverse.dropWhile (fun c => c = '\n')).reverse

/-- Index of the first occurrence of `needle` in `hay`, as Python
`hay.find(needle)` / the `in` test (`none` when absent). -/
def findSub (needle : Text) : Text → Option Nat
  | [] => if needle.isEmpty then some 0 else none
  | c :: t =>
    if needle.isPrefixOf (c :: t) then some 0
    else (findSub needle t).map (· + 1)

/-- Python `needle in hay`. -/
def containsSub (needle hay : Text) : Bool := (findSub needle hay).isSome

/-- The marker phrase the program scans replies for (lowercase, as compared
against `full_content.lower()`; src/main.py lines 109, 216, 289). -/
def marker : Text := "here's your refined query:".data

/-- `"here's your refined query:" in full.lower()` (lines 109, 216, 289). -/
def hasMarker (full : Text) : Bool := containsSub marker (lower full)

/-- The fixed closing-phrase list of src/main.py lines 142 and 245. -/
def closingPhrases : List Text :=
  ["hope this helps".data, "does that help".data, "hope that helps".data,
   "let me know".data, "hope this".data, "does that".data]

/-- The loop of src/main.py lines 144-149 (and 247-252): for each phrase in
list order, if it occurs in `query.lower()`, cut `query` at the phrase's
first occurrence, strip, and break. -/
def closingTruncGo : List Text → Text → Text
  | [], query => query
  | p :: ps, query =>
    match findSub p (lower query) with
    | some idx => strip (query.take idx)
    | none => closingTruncGo ps query

/-- Closing-phrase removal, src/main.py lines 142-149 / 245-252. -/
def closingTrunc (query : Text) : Text := closingTruncGo closingPhrases query

/-- `query_text.split('\n\n')`, Python list split on the two-newline
separator (src/main.py line 131/234); `acc` holds the reversed current
piece. -/
def splitOnNN (acc : Text) : Text → List Text
  | [] => [acc.reverse]
  | '\n' :: '\n' :: t => acc.reverse :: splitOnNN [] t
  | c :: t => splitOnNN (c :: acc) t

/-- `s.split('\n')[0]`: the text before the first newline. -/
def firstLine (s : Text) : Text := s.takeWhile (fun c => c ≠ '\n')

/-- The candidate refined query that the streaming handlers compute once the
marker was seen, given the index `i` of the marker's first case-insensitive
occurrence in `full` (src/main.py lines 124-149, identically 227-252):
skip the marker and the following whitespace (the regex
"here's your refined query:\s*"), strip, keep the text before the first
paragraph break (the dead `else` branch of line 135/238 is kept), strip,
and remove a trailing closing phrase. -/
def streamQuery (full : Text) (i : Nat) : Text :=
  let queryText := strip ((full.drop (i + marker.length)).dropWhile isWS)
  let query :=
    match splitOnNN [] queryText with
    | q :: _ => strip q
    | [] => strip (rstripNL queryText)
  closingTrunc query

/-- The extraction the two streaming handlers perform over the final
concatenated reply (src/main.py lines 123-157 and 226-260): `some query`
means a terminal turn with that refined query, `none` a non-terminal turn
(no marker, or nothing left after truncation, line 151/254). -/
def extractStream (full : Text) : Option Text :=
  if hasMarker full then
    match findSub marker (lower full) with
    | some i =>
      let q := streamQuery full i
      if q = [] then none else some q
    | none => none
  else none

/-- Does the tail pattern `(?:\n\n|\n$|$)` of the blocking regex
(src/main.py line 291) match at a point whose remaining input is `t`?
Without re.MULTILINE, `$` matches at the end of the string or just before a
final newline, so the alternation succeeds exactly on `''`, `'\n'` and any
remainder starting with two newlines. -/
def termMatch : Text → Bool
  | [] => true
  | ['\n'] => true
  | '\n' :: '\n' :: _ => true
  | _ => false

/-- The lazy group `(.+?)` of line 291 (re.DOTALL: `.` also matches
newlines): the shortest nonempty prefix of the input after which the tail
pattern matches; `acc` is the text consumed so far. -/
def lazyGroupAux (acc : Text) : Text → Option Text
  | [] => none
  | c :: t => if termMatch t then some (acc ++ [c]) else lazyGroupAux (acc ++ [c]) t

/-- `(.+?)(?:\n\n|\n$|$)` on input `s`: the captured group. -/
def lazyGroup (s : Text) : Option Text := lazyGroupAux [] s

/-- Greedy `\s*` with backtracking: try consuming `j` whitespace characters
first, one fewer on failure of the rest of the pattern. -/
def wsBacktrack : Nat → Text → Option Text
  | 0, r => lazyGroup r
  | j + 1, r => lazyGroup (r.drop (j + 1)) <|> wsBacktrack j r

/-- `\s*(.+?)(?:\n\n|\n$|$)` on the text `r` following the marker: greedy
`\s*` starts at the full whitespace run. -/
def restMatch (r : Text) : Option Text := wsBacktrack (r.takeWhile isWS).length r

/-- Case-insensitive literal prefix match (re.IGNORECASE on the ASCII
marker): `p` is given lowercase. -/
def ciPrefixOf : Text → Text → Bool
  | [], _ => true
  | _ :: _, [] => false
  | p :: ps, c :: cs => (p == Char.toLower c) && ciPrefixOf ps cs

/-- `re.search(r"here's your refined query:\s*(.+?)(?:\n\n|\n$|$)", s,
re.IGNORECASE | re.DOTALL).group(1)` (src/main.py line 291): scan positions
left to right; at each case-insensitive marker occurrence try the rest of
the pattern, moving on if it fails (it fails only when nothing follows). -/
def searchPattern : Text → Option Text
  | [] => none
  | c :: t =>
    if ciPrefixOf marker (c :: t) then
      match restMatch ((c :: t).drop marker.length) with
      | some g => some g
      | none => searchPattern t
    else searchPattern t

/-- The extraction of the blocking continue endpoint, src/main.py lines
289-293: marker containment test, the regex of line 291, then
`match.group(1).strip().split('\n')[0].strip()`.  Unlike the streaming
extraction there is no emptiness check: `some []` is a terminal turn with
an empty query. -/
def continueBlockingExtract (response : Text) : Option Text :=
  if hasMarker response then
    match searchPattern response with
    | some g => some (strip (firstLine (strip g)))
    | none => none
  else none

/-! ## Data model: turns, message logs, the conversation store -/

/-- Message roles (SystemMessage / HumanMessage / AIMessage). -/
inductive Role
  | system
  | user
  | assistant
deriving DecidableEq

/-- One turn: role and text content. -/
abbrev Msg := Role × Text

/-- A conversation's ordered message history. -/
abbrev Log := List Msg

/-- `conversations_db` (src/main.py line 54): a mapping from conversation id
to message log; ids are embedded as opaque naturals. -/
abbrev Store := Nat → Option Log

/-- Python `db[k] = v`. -/
def setStore (db : Store) (k : Nat) (v : Log) : Store :=
  fun j => if j = k then some v else db j

/-- Python `del db[k]`. -/
def delStore (db : Store) (k : Nat) : Store :=
  fun j => if j = k then none else db j

/-- One mutation of the conversation store, for counting side effects. -/
inductive Mut
  | write (k : Nat) (v : Log)
  | del (k : Nat)
deriving DecidableEq

/-- Apply one mutation. -/
def applyMut (db : Store) : Mut → Store
  | .write k v => setStore db k v
  | .del k => delStore db k

/-- Apply a mutation trace in order. -/
def applyTrace (db : Store) (t : List Mut) : Store := t.foldl applyMut db

/-- The fixed instructional prompt of src/main.py lines 56-82. -/
def SYSTEM_PROMPT : Text :=
  ("\nYou are a helpful, friendly person helping someone refine their request. Talk naturally, like you're having a real conversation.\n\nCONVERSATION FLOW (STRICTLY FOLLOW):\n1. FIRST QUESTION - Ask about their role: \"What is your role? Are you a student, working professional, researcher, or something else?\"\n2. QUESTIONS 2-4 - Ask EXACTLY 3 clarifying questions about their problem, building on their previous answers\n3. AFTER 4TH QUESTION - You MUST output the final refined query\n\nCRITICAL RULES:\n- Start with the role question, then ask exactly 3 problem clarifications = 4 questions total\n- Ask one clarifying question at a time, building on their previous answers\n- Use natural acknowledgments: \"Got it\", \"Nice\", \"Understood\", \"Great\", \"I understand\" - keep it brief and genuine\n- When someone seems distressed, stuck, or frustrated, console them first. Say something like \"I understand\" or \"I hear you\" to acknowledge their feelings before asking your question\n- Include helpful examples in your questions when it makes sense (e.g., \"For example, Python + FastAPI, Node.js, or Java Spring?\")\n- Keep responses conversational and brief - don't overthink or be overly formal\n- After the 4th question (1 role + 3 clarifying), you MUST stop asking and output the final refined query\n\nWhen outputting the final query:\n- Start with the phrase: \"Here's your refined query:\"\n- MUST include the user's role/profession at the beginning of the query\n- Format: Here's your refined query: As a [role], [user's refined request with all context]\n- Example: Here's your refined query: As a student learning web development, I need help debugging a React component that isn't rendering properly\n- Do NOT add \"Hope this helps!\" or similar closing statements after the query\n- The phrase \"Here's your refined query:\" is REQUIRED at the beginning of the final output\n\nWrite like a real person would talk - natural, warm, and helpful. Avoid sounding like a robot or following a rigid script.\n").data

/-- The system turn that opens every log. -/
def sysMsg : Msg := (Role.system, SYSTEM_PROMPT)

/-- The formatted final query, `f"User wants to say this: {query}"`
(src/main.py lines 155, 258, 298). -/
def fmtFinal (query : Text) : Text := "User wants to say this: ".data ++ query

/-- `ApiResponse` (src/main.py lines 23-26): all three fields default to
`None`. -/
structure ApiResponse where
  conversation_id : Option Nat
  question : Option Text
  refined_query : Option Text
deriving DecidableEq

/-- One server-sent event of the streaming endpoints. -/
inductive Event
  | token (content : Text) (cid : Nat)
  | finalQuery (refined : Text)
  | done (cid : Nat) (question : Text)
  | error (content : Text)
deriving DecidableEq

/-- Content of a token event (empty for the other events). -/
def eventText : Event → Text
  | .token c _ => c
  | _ => []

/-! ## The streaming token loop and the four endpoints -/

/-- The chunk loop of both streaming handlers (src/main.py lines 103-120
and 210-223): skip falsy (empty) chunks, accumulate the buffer, and while
the marker has not yet appeared in the lowercased buffer emit each chunk as
a token event; once it appears, keep accumulating silently.  Returns the
final buffer, the `found_final_query` flag and the emitted token events.
(The start handler additionally computes `content_before_final` at lines
111-114, a variable never read afterwards.) -/
def streamLoop (cid : Nat) : List Text → Text → Bool → Text × Bool × List Event
  | [], full, found => (full, found, [])
  | ch :: rest, full, found =>
    if ch = [] then streamLoop cid rest full found
    else
      let full2 := full ++ ch
      if found then streamLoop cid rest full2 true
      else if hasMarker full2 then streamLoop cid rest full2 true
      else
        let r := streamLoop cid rest full2 false
        (r.1, r.2.1, Event.token ch cid :: r.2.2)

/-- Blocking start endpoint, src/main.py lines 169-184: mint an id, build
the log, invoke the model (`reply` is the reply text; a model failure here
is uncaught and propagates, so it is not modeled), append the reply,
store, respond.  Returns the response and the store-mutation trace. -/
def start_inquiry (message : Text) (cid : Nat) (reply : Text) :
    ApiResponse × List Mut :=
  let history := [sysMsg, (Role.user, message), (Role.assistant, reply)]
  (⟨some cid, some reply, none⟩, [Mut.write cid history])

/-- Streaming start endpoint, src/main.py lines 85-167: store the fresh
two-turn log immediately (line 96), run the token loop, then either emit
the final query and delete the entry (guarded, lines 151-157), or append
the assistant turn, overwrite the entry and emit `done` (lines 159-165).
Returns the events and the store-mutation trace (the guard of line 153
reads the store after the initial write). -/
def start_inquiry_stream (message : Text) (cid : Nat) (chunks : List Text)
    (db : Store) : List Event × List Mut :=
  let history := [sysMsg, (Role.user, message)]
  let w0 : Mut := Mut.write cid history
  let r := streamLoop cid chunks [] false
  let full := r.1
  let found := r.2.1
  let toks := r.2.2
  let contResult : List Event × List Mut :=
    (toks ++ [Event.done cid full],
     [w0, Mut.write cid (history ++ [(Role.assistant, full)])])
  if found then
    match findSub marker (lower full) with
    | some i =>
      let query := streamQuery full i
      if query = [] then contResult
      else
        (toks ++ [Event.finalQuery (fmtFinal query)],
         if ((applyMut db w0) cid).isSome then [w0, Mut.del cid] else [w0])
    | none => contResult
  else contResult

/-- The generator of the streaming continue endpoint after the model call,
src/main.py lines 206-269: the token loop, then the extraction of lines
226-260 and the store update of lines 254-268.  The generator runs after
the handler returned, so the store it reads at completion time, `dbEnd`,
may differ from the one the handler saw: the delete of line 257 and the
overwrite of line 267 are both guarded by a fresh existence check. -/
def continueGenerate (cid : Nat) (history : Log) (chunks : List Text)
    (dbEnd : Store) : List Event × Store :=
  let r := streamLoop cid chunks [] false
  let full := r.1
  let found := r.2.1
  let toks := r.2.2
  let contResult : List Event × Store :=
    (toks ++ [Event.done cid full],
     if (dbEnd cid).isSome then setStore dbEnd cid (history ++ [(Role.assistant, full)])
     else dbEnd)
  if found then
    match findSub marker (lower full) with
    | some i =>
      let query := streamQuery full i
      if query = [] then contResult
      else
        (toks ++ [Event.finalQuery (fmtFinal query)],
         if (dbEnd cid).isSome then delStore dbEnd cid else dbEnd)
    | none => contResult
  else contResult

/-- Streaming continue endpoint run to completion, src/main.py lines
186-275: not-found check (made twice, lines 191 and 198), copy the stored
log (`list(...)`, line 203), append the user turn, return a streaming
response over `generate`.  The model call `llm.astream` is iterated INSIDE
`generate` (line 210), whose body runs only after the handler has returned
the response, so a failure raised by the model invocation is NOT caught by
the try/except of line 272, which guards only the handler body: the stream
is aborted with no error event, the exception escapes into the server
(third component `some e`), and the store is untouched (the generator's
writes all come after the chunk loop).  `llmStream` yields the chunk
sequence, or the exception raised when its iteration starts. -/
def continue_inquiry_stream (db : Store) (cid : Nat) (answer : Text)
    (llmStream : Log → Except Text (List Text)) :
    List Event × Store × Option Text :=
  match db cid with
  | none => ([Event.error "Conversation not found.".data], db, none)
  | some h0 =>
    let history := h0 ++ [(Role.user, answer)]
    match llmStream history with
    | .error e => ([], db, some e)
    | .ok chunks =>
      let r := continueGenerate cid history chunks db
      (r.1, r.2, none)

/-- Blocking continue endpoint, src/main.py lines 277-306.  Line 283 binds
`history` to the stored list itself, so the `append` of line 284 mutates
the store entry in place before the model is invoked: the embedding writes
the appended log back immediately (`db1`).  A model failure is caught
(line 305) and reported as `refined_query = "Error: " + str(e)`.  On a
terminal extraction the entry is deleted (guarded, lines 295-296); on a
non-terminal turn the assistant turn is appended and the entry overwritten
(lines 302-303, unguarded, no suspension point between check and write). -/
def continue_inquiry (db : Store) (cid : Nat) (answer : Text)
    (llm : Log → Except Text Text) : ApiResponse × Store :=
  match db cid with
  | none => (⟨none, none, some "Error: Conversation not found.".data⟩, db)
  | some h0 =>
    let history1 := h0 ++ [(Role.user, answer)]
    let db1 := setStore db cid history1
    match llm history1 with
    | .error e => (⟨none, none, some ("Error: ".data ++ e)⟩, db1)
    | .ok reply =>
      match continueBlockingExtract reply with
      | some query =>
        let db2 := if (db1 cid).isSome then delStore db1 cid else db1
        (⟨none, none, some (fmtFinal query)⟩, db2)
      | none =>
        (⟨some cid, some reply, none⟩,
         setStore db1 cid (history1 ++ [(Role.assistant, reply)]))

/-- Concatenated contents of a list of events (only token events carry
content): the text a streaming client has been shown. -/
def tokText (evs : List Event) : Text := (evs.map eventText).flatten

/-- The truncation rule exactly as claim C3 words it (formalized from the
claim, not from the source, for comparison): find every closing phrase's
first occurrence, truncate strictly before the earliest such position in
the text, then trim. -/
def claimEarliestTrunc (query : Text) : Text :=
  match (closingPhrases.filterMap (fun p => findSub p (lower query))).min? with
  | some i => strip (query.take i)
  | none => query

/-- A three-turn log used for concrete counterexamples and witnesses. -/
def histEx : Log := [sysMsg, (Role.user, "hi".data), (Role.assistant, "What is your role?".data)]

/-- A store holding exactly conversation 0 with log `histEx`. -/
def dbEx : Store := fun k => if k = 0 then some histEx else none

/-- The empty store. -/
def dbEmpty : Store := fun _ => none

/-! ## Infrastructure lemmas about the text primitives -/

theorem rstrip_eq_rdropWhile (s : Text) : rstrip s = s.rdropWhile isWS := rfl

theorem lstrip_idem (s : Text) : lstrip (lstrip s) = lstrip s := by
  simp only [lstrip]
  exact List.dropWhile_idempotent isWS s

theorem lstrip_length_le (s : Text) : (lstrip s).length ≤ s.length :=
  (List.dropWhile_suffix isWS).sublist.length_le

/-- A prefix of a list whose head survives `lstrip` also survives it. -/
theorem lstrip_eq_self_of_prefix {t u : Text} (ht : lstrip t = t) (hu : u <+: t) :
    lstrip u = u := by
  cases u with
  | nil => rfl
  | cons c u' =>
    rcases t with _ | ⟨d, t'⟩
    · exact absurd hu.length_le (by simp)
    · have hcd : c = d := (List.cons_prefix_cons.mp hu).1
      subst hcd
      by_cases hws : isWS c
      · exfalso
        have : lstrip (c :: t') = lstrip t' := by simp [lstrip, hws]
        have hlen := lstrip_length_le t'
        rw [ht] at this
        rw [← this] at hlen
        simp only [List.length_cons] at hlen
        omega
      · simp [lstrip, hws]

theorem strip_lstrip (s : Text) : strip (lstrip s) = strip s := by
  simp only [strip]
  rw [lstrip_idem]

theorem strip_strip (s : Text) : strip (strip s) = strip s := by
  have h1 : lstrip (strip s) = strip s := by
    refine lstrip_eq_self_of_prefix (lstrip_idem s) ?_
    rw [strip, rstrip_eq_rdropWhile]
    exact List.rdropWhile_prefix isWS (lstrip s)
  rw [strip, h1, strip, rstrip_eq_rdropWhile, rstrip_eq_rdropWhile,
    List.rdropWhile_idempotent]

theorem mem_lstrip {s : Text} {c : Char} (h : c ∈ lstrip s) : c ∈ s :=
  (List.dropWhile_suffix isWS).subset h

theorem mem_strip {s : Text} {c : Char} (h : c ∈ strip s) : c ∈ s := by
  rw [strip, rstrip_eq_rdropWhile] at h
  exact mem_lstrip ((List.rdropWhile_prefix isWS (lstrip s)).subset h)

theorem lstrip_ne_nil_of_strip {s : Text} (h : strip s ≠ []) : lstrip s ≠ [] := by
  intro hn
  exact h (by simp [strip, hn, rstrip])

theorem drop_length_takeWhile (p : Char → Bool) :
    ∀ s : Text, s.drop (s.takeWhile p).length = s.dropWhile p
  | [] => rfl
  | c :: t => by
    by_cases h : p c
    · simp [List.takeWhile_cons, List.dropWhile_cons, h, drop_length_takeWhile p t]
    · simp [List.takeWhile_cons, List.dropWhile_cons, h]

/-! ## Lemmas about substring search -/

theorem findSub_cons (n : Text) (c : Char) (t : Text) :
    findSub n (c :: t) =
      (if n.isPrefixOf (c :: t) then some 0 else (findSub n t).map (· + 1)) := rfl

theorem containsSub_cons (n : Text) (c : Char) (t : Text) :
    containsSub n (c :: t) = (n.isPrefixOf (c :: t) || containsSub n t) := by
  simp only [containsSub, findSub_cons]
  by_cases h : n.isPrefixOf (c :: t) <;> simp [h]

theorem containsSub_of_prefix_drop {n s : Text} {i : Nat}
    (h : n <+: s.drop i) : containsSub n s = true := by
  induction s generalizing i with
  | nil =>
    rw [List.drop_nil] at h
    rw [List.prefix_nil.mp h]
    rfl
  | cons c t ih =>
    rw [containsSub_cons]
    cases i with
    | zero =>
      rw [List.drop_zero] at h
      simp [List.isPrefixOf_iff_prefix.mpr h]
    | succ j =>
      rw [List.drop_succ_cons] at h
      simp [ih h]

theorem findSub_prefix {n : Text} : ∀ {s : Text} {i : Nat},
    findSub n s = some i → n <+: s.drop i := by
  intro s
  induction s with
  | nil =>
    intro i h
    rw [show findSub n [] = if n.isEmpty then some 0 else none from rfl] at h
    by_cases hn : n.isEmpty
    · rw [if_pos hn] at h
      simp only [Option.some.injEq] at h
      subst h
      simp [List.isEmpty_iff.mp hn]
    · rw [if_neg hn] at h
      exact absurd h (by simp)
  | cons c t ih =>
    intro i h
    rw [findSub_cons] at h
    by_cases hp : n.isPrefixOf (c :: t)
    · rw [if_pos hp] at h
      simp only [Option.some.injEq] at h
      subst h
      simpa using List.isPrefixOf_iff_prefix.mp hp
    · rw [if_neg hp] at h
      rcases hmap : findSub n t with _ | j
      · rw [hmap] at h
        exact absurd h (by simp)
      · rw [hmap] at h
        simp only [Option.map_some', Option.some.injEq] at h
        subst h
        rw [List.drop_succ_cons]
        exact ih hmap

theorem containsSub_append_left {n a : Text} (b : Text)
    (h : containsSub n a = true) : containsSub n (a ++ b) = true := by
  simp only [containsSub, Option.isSome_iff_exists] at h
  obtain ⟨i, hi⟩ := h
  have hp := findSub_prefix hi
  apply containsSub_of_prefix_drop (i := i)
  rw [List.drop_append_eq_append_drop]
  exact hp.trans (List.prefix_append _ _)

/-- An occurrence that fits inside the first `L` characters is an
occurrence in the length-`L` prefix. -/
theorem containsSub_take {n s : Text} {i L : Nat} (h : findSub n s = some i)
    (hL : i + n.length ≤ L) : containsSub n (s.take L) = true := by
  have hp := findSub_prefix h
  apply containsSub_of_prefix_drop (i := i)
  rw [List.drop_take]
  exact List.prefix_take_iff.mpr ⟨hp, by omega⟩

theorem lower_append (a b : Text) : lower (a ++ b) = lower a ++ lower b := by
  simp [lower]

theorem lower_take (s : Text) (n : Nat) : lower (s.take n) = (lower s).take n := by
  simp [lower, List.map_take]

theorem hasMarker_append {a : Text} (b : Text) (h : hasMarker a = true) :
    hasMarker (a ++ b) = true := by
  rw [hasMarker, lower_append]
  exact containsSub_append_left _ h

theorem hasMarker_nil : hasMarker [] = false := rfl

/-- A prefix of the buffer that stops before the end of the marker's first
occurrence and does not itself contain the marker: here, conversely, if the
prefix is long enough to cover the occurrence it contains the marker. -/
theorem hasMarker_take {s : Text} {i L : Nat}
    (h : findSub marker (lower s) = some i) (hL : i + marker.length ≤ L) :
    hasMarker (s.take L) = true := by
  rw [hasMarker, lower_take]
  exact containsSub_take h hL

/-! ## Lemmas about the pieces of the streaming extraction -/

theorem splitOnNN_no_nl : ∀ (s acc : Text), (∀ c ∈ s, c ≠ '\n') →
    splitOnNN acc s = [acc.reverse ++ s]
  | [], acc, _ => by simp [splitOnNN]
  | c :: t, acc, h => by
    rw [splitOnNN.eq_def]
    split
    · rename_i heq
      exact (List.cons_ne_nil _ _ heq).elim
    · rename_i t' heq
      injection heq with h1 _
      exact absurd h1 (h c (List.mem_cons_self ..))
    · rename_i c' t' heq
      injection heq with h1 h2
      subst h1
      subst h2
      rw [splitOnNN_no_nl t (c :: acc) (fun x hx => h x (List.mem_cons_of_mem _ hx))]
      simp

theorem firstLine_no_nl {s : Text} (h : ∀ c ∈ s, c ≠ '\n') : firstLine s = s := by
  rw [firstLine, List.takeWhile_eq_self_iff]
  intro a ha
  simpa using h a ha

theorem closingTruncGo_of_none : ∀ (ps : List Text) (q : Text),
    (∀ p ∈ ps, findSub p (lower q) = none) → closingTruncGo ps q = q
  | [], q, _ => rfl
  | p :: ps, q, h => by
    rw [closingTruncGo, h p (List.mem_cons_self ..)]
    exact closingTruncGo_of_none ps q fun x hx => h x (List.mem_cons_of_mem _ hx)

/-! ## Lemmas about the blocking regex machinery -/

theorem termMatch_false {c : Char} (t : Text) (h : c ≠ '\n') :
    termMatch (c :: t) = false := by
  rw [termMatch.eq_def]
  split
  · rename_i heq
    exact (List.cons_ne_nil _ _ heq).elim
  · rename_i heq
    injection heq with h1 _
    exact absurd h1 h
  · rename_i heq
    injection heq with h1 _
    exact absurd h1 h
  · rfl

theorem lazyGroupAux_isSome : ∀ (t : Text) (acc : Text) (c : Char),
    (lazyGroupAux acc (c :: t)).isSome = true
  | [], acc, c => by simp [lazyGroupAux, termMatch]
  | d :: t', acc, c => by
    rw [lazyGroupAux]
    by_cases h : termMatch (d :: t')
    · simp [h]
    · simp only [h, if_false]
      exact lazyGroupAux_isSome t' (acc ++ [c]) d

theorem lazyGroup_isSome {s : Text} (h : s ≠ []) : (lazyGroup s).isSome = true := by
  cases s with
  | nil => exact absurd rfl h
  | cons c t => exact lazyGroupAux_isSome t [] c

theorem wsBacktrack_isSome : ∀ (j : Nat) (r : Text), r ≠ [] →
    (wsBacktrack j r).isSome = true
  | 0, r, h => lazyGroup_isSome h
  | j + 1, r, h => by
    rw [wsBacktrack]
    rcases hd : lazyGroup (r.drop (j + 1)) with _ | g
    · simpa [hd, Option.orElse] using wsBacktrack_isSome j r h
    · simp [hd, Option.orElse]

theorem restMatch_isSome {r : Text} (h : r ≠ []) : (restMatch r).isSome = true :=
  wsBacktrack_isSome _ r h

theorem lazyGroupAux_no_nl : ∀ (t : Text) (acc : Text) (c : Char),
    (∀ x ∈ t, x ≠ '\n') → lazyGroupAux acc (c :: t) = some (acc ++ c :: t)
  | [], acc, c, _ => by simp [lazyGroupAux, termMatch]
  | d :: t', acc, c, h => by
    rw [lazyGroupAux, termMatch_false t' (h d (List.mem_cons_self ..)), if_neg (by simp)]
    rw [lazyGroupAux_no_nl t' (acc ++ [c]) d (fun x hx => h x (List.mem_cons_of_mem _ hx))]
    simp

theorem lazyGroup_no_nl {s : Text} (hne : s ≠ []) (h : ∀ x ∈ s, x ≠ '\n') :
    lazyGroup s = some s := by
  cases s with
  | nil => exact absurd rfl hne
  | cons c t =>
    rw [lazyGroup, lazyGroupAux_no_nl t [] c (fun x hx => h x (List.mem_cons_of_mem _ hx))]
    simp

theorem wsBacktrack_of_drop {j : Nat} {r g : Text}
    (h : lazyGroup (r.drop j) = some g) : wsBacktrack j r = some g := by
  cases j with
  | zero => simpa using h
  | succ j' => simp [wsBacktrack, h, Option.orElse]

/-- On a newline-free remainder that is not all whitespace, the pattern
`\s*(.+?)(?:\n\n|\n$|$)` captures everything after the leading whitespace. -/
theorem restMatch_no_nl {r : Text} (hnl : ∀ x ∈ r, x ≠ '\n')
    (hne : lstrip r ≠ []) : restMatch r = some (lstrip r) := by
  rw [restMatch]
  apply wsBacktrack_of_drop
  rw [drop_length_takeWhile]
  exact lazyGroup_no_nl hne (fun x hx => hnl x (mem_lstrip hx))

theorem ciPrefixOf_eq : ∀ (p s : Text), ciPrefixOf p s = p.isPrefixOf (lower s)
  | [], s => by cases s <;> rfl
  | _ :: _, [] => rfl
  | a :: p, c :: s => by
    rw [ciPrefixOf, lower, List.map_cons, List.isPrefixOf]
    rw [ciPrefixOf_eq p s]
    rfl

/-- The leftmost-match semantics of the blocking regex: at the first
case-insensitive marker occurrence with a nonempty remainder, the search
returns that remainder's match. -/
theorem searchPattern_eq : ∀ {s : Text} {i : Nat},
    findSub marker (lower s) = some i → s.drop (i + marker.length) ≠ [] →
    searchPattern s = restMatch (s.drop (i + marker.length)) := by
  intro s
  induction s with
  | nil =>
    intro i h _
    exact absurd h (by simp [lower, findSub, marker])
  | cons c t ih =>
    intro i h hne
    rw [searchPattern]
    rw [show lower (c :: t) = Char.toLower c :: lower t from rfl, findSub_cons] at h
    by_cases hp : marker.isPrefixOf (Char.toLower c :: lower t)
    · rw [if_pos hp] at h
      simp only [Option.some.injEq] at h
      subst h
      rw [if_pos (by rw [ciPrefixOf_eq]; exact hp)]
      simp only [Nat.zero_add] at hne ⊢
      rcases hr : restMatch ((c :: t).drop marker.length) with _ | g
      · exact absurd (restMatch_isSome hne) (by simp [hr])
      · rfl
    · rw [if_neg hp] at h
      rw [if_neg (by rw [ciPrefixOf_eq]; exact hp)]
      rcases hmap : findSub marker (lower t) with _ | j
      · rw [hmap] at h
        exact absurd h (by simp)
      · rw [hmap] at h
        simp only [Option.map_some', Option.some.injEq] at h
        subst h
        rw [show (c :: t).drop (j + 1 + marker.length) = t.drop (j + marker.length) from by
          rw [Nat.add_right_comm, List.drop_succ_cons]] at hne ⊢
        exact ih hmap hne

/-! ## Lemmas about the store and the streaming token loop -/

theorem setStore_self (db : Store) (k : Nat) (v : Log) : setStore db k v k = some v := by
  simp [setStore]

theorem setStore_ne (db : Store) {k j : Nat} (v : Log) (h : j ≠ k) :
    setStore db k v j = db j := by
  simp [setStore, h]

theorem delStore_self (db : Store) (k : Nat) : delStore db k k = none := by
  simp [delStore]

theorem delStore_ne (db : Store) {k j : Nat} (h : j ≠ k) : delStore db k j = db j := by
  simp [delStore, h]

theorem streamLoop_fst (cid : Nat) : ∀ (chunks : List Text) (full0 : Text) (fd : Bool),
    (streamLoop cid chunks full0 fd).1 = full0 ++ chunks.flatten
  | [], full0, fd => by simp [streamLoop]
  | ch :: rest, full0, fd => by
    rw [streamLoop]
    by_cases hch : ch = []
    · rw [if_pos hch, streamLoop_fst cid rest full0 fd, hch]
      simp
    · rw [if_neg hch]
      cases fd with
      | true =>
        rw [if_pos rfl, streamLoop_fst cid rest (full0 ++ ch) true]
        simp
      | false =>
        rw [if_neg (by simp)]
        by_cases hm : hasMarker (full0 ++ ch)
        · rw [if_pos hm, streamLoop_fst cid rest (full0 ++ ch) true]
          simp
        · rw [if_neg hm]
          simp only [List.flatten_cons, ← List.append_assoc]
          exact streamLoop_fst cid rest (full0 ++ ch) false

theorem streamLoop_found (cid : Nat) : ∀ (chunks : List Text) (full0 : Text) (fd : Bool),
    fd = hasMarker full0 → (streamLoop cid chunks full0 fd).2.1 = hasMarker (full0 ++ chunks.flatten)
  | [], full0, fd, h => by simpa [streamLoop] using h
  | ch :: rest, full0, fd, h => by
    rw [streamLoop]
    by_cases hch : ch = []
    · rw [if_pos hch, streamLoop_found cid rest full0 fd h, hch]
      simp
    · rw [if_neg hch]
      cases fd with
      | true =>
        rw [if_pos rfl,
          streamLoop_found cid rest (full0 ++ ch) true (hasMarker_append ch h.symm).symm]
        simp
      | false =>
        rw [if_neg (by simp)]
        by_cases hm : hasMarker (full0 ++ ch)
        · rw [if_pos hm, streamLoop_found cid rest (full0 ++ ch) true hm.symm]
          simp
        · rw [if_neg hm]
          simp only [List.flatten_cons, ← List.append_assoc]
          exact streamLoop_found cid rest (full0 ++ ch) false (by simpa using hm)

theorem streamLoop_true_toks (cid : Nat) : ∀ (chunks : List Text) (full0 : Text),
    (streamLoop cid chunks full0 true).2.2 = []
  | [], _ => rfl
  | ch :: rest, full0 => by
    rw [streamLoop]
    by_cases hch : ch = []
    · rw [if_pos hch]
      exact streamLoop_true_toks cid rest full0
    · rw [if_neg hch, if_pos rfl]
      exact streamLoop_true_toks cid rest (full0 ++ ch)

/-- What the token loop shows the client: a marker-free prefix of the final
buffer. -/
theorem streamLoop_toks_spec (cid : Nat) : ∀ (chunks : List Text) (full0 : Text),
    hasMarker full0 = false →
    ∃ rest, full0 ++ chunks.flatten =
        (full0 ++ tokText (streamLoop cid chunks full0 false).2.2) ++ rest ∧
      hasMarker (full0 ++ tokText (streamLoop cid chunks full0 false).2.2) = false
  | [], full0, h0 => ⟨[], by simp [streamLoop, tokText], by simpa [streamLoop, tokText] using h0⟩
  | ch :: rest, full0, h0 => by
    rw [streamLoop]
    by_cases hch : ch = []
    · rw [if_pos hch]
      obtain ⟨r, hr, hm⟩ := streamLoop_toks_spec cid rest full0 h0
      exact ⟨r, by rw [hch]; simpa using hr, hm⟩
    · rw [if_neg hch, if_neg (by simp)]
      by_cases hm : hasMarker (full0 ++ ch)
      · rw [if_pos hm, streamLoop_true_toks cid rest (full0 ++ ch)]
        refine ⟨ch ++ rest.flatten, ?_, by simpa [tokText] using h0⟩
        simp [tokText]
      · rw [if_neg hm]
        obtain ⟨r, hr, hmm⟩ := streamLoop_toks_spec cid rest (full0 ++ ch) (by simpa using hm)
        refine ⟨r, ?_, ?_⟩
        · simp only [tokText, List.map_cons, List.flatten_cons, eventText] at hr ⊢
          simpa [← List.append_assoc] using hr
        · simp only [tokText, List.map_cons, List.flatten_cons, eventText] at hmm ⊢
          simpa [← List.append_assoc] using hmm

/-! ## Characterizations of the endpoints in terms of `extractStream` -/

theorem hasMarker_of_findSub {full : Text} {i : Nat}
    (h : findSub marker (lower full) = some i) : hasMarker full = true := by
  simp [hasMarker, containsSub, h]

theorem findSub_of_hasMarker {full : Text} (h : hasMarker full = true) :
    ∃ i, findSub marker (lower full) = some i := by
  simpa [hasMarker, containsSub, Option.isSome_iff_exists] using h

theorem streamQuery_nil_of_none {full : Text} {i : Nat}
    (hi : findSub marker (lower full) = some i) (h : extractStream full = none) :
    streamQuery full i = [] := by
  rw [extractStream, if_pos (hasMarker_of_findSub hi)] at h
  simp only [hi] at h
  by_cases hq : streamQuery full i = []
  · exact hq
  · rw [if_neg hq] at h
    exact absurd h (by simp)

theorem extractStream_some_elim {full q : Text} (h : extractStream full = some q) :
    ∃ i, findSub marker (lower full) = some i ∧ streamQuery full i = q ∧ q ≠ [] := by
  rw [extractStream] at h
  by_cases hm : hasMarker full = true
  · rw [if_pos hm] at h
    obtain ⟨i, hi⟩ := findSub_of_hasMarker hm
    simp only [hi] at h
    by_cases hq : streamQuery full i = []
    · rw [if_pos hq] at h
      exact absurd h (by simp)
    · rw [if_neg hq] at h
      injection h with h
      exact ⟨i, hi, h, h ▸ hq⟩
  · rw [if_neg hm] at h
    exact absurd h (by simp)

theorem streamLoop_fst_nil (cid : Nat) (chunks : List Text) :
    (streamLoop cid chunks [] false).1 = chunks.flatten := by
  simpa using streamLoop_fst cid chunks [] false

theorem streamLoop_found_nil (cid : Nat) (chunks : List Text) :
    (streamLoop cid chunks [] false).2.1 = hasMarker chunks.flatten := by
  simpa using streamLoop_found cid chunks [] false hasMarker_nil.symm

/-- A non-terminal streaming continue: the generator appends the assistant
turn and overwrites the entry only if it still exists. -/
theorem continueGenerate_cont {cid : Nat} {history : Log} {chunks : List Text}
    {dbEnd : Store} (h : extractStream chunks.flatten = none) :
    continueGenerate cid history chunks dbEnd =
      ((streamLoop cid chunks [] false).2.2 ++ [Event.done cid chunks.flatten],
       if (dbEnd cid).isSome then
         setStore dbEnd cid (history ++ [(Role.assistant, chunks.flatten)])
       else dbEnd) := by
  simp only [continueGenerate, streamLoop_fst_nil, streamLoop_found_nil]
  by_cases hm : hasMarker chunks.flatten = true
  · rw [if_pos hm]
    obtain ⟨i, hi⟩ := findSub_of_hasMarker hm
    simp only [hi]
    rw [if_pos (streamQuery_nil_of_none hi h)]
  · rw [if_neg hm]

/-- A terminal streaming continue: the generator emits the final query and
deletes the entry (tolerating its absence). -/
theorem continueGenerate_final {cid : Nat} {history : Log} {chunks : List Text}
    {dbEnd : Store} {q : Text} (h : extractStream chunks.flatten = some q) :
    continueGenerate cid history chunks dbEnd =
      ((streamLoop cid chunks [] false).2.2 ++ [Event.finalQuery (fmtFinal q)],
       if (dbEnd cid).isSome then delStore dbEnd cid else dbEnd) := by
  obtain ⟨i, hi, hq, hne⟩ := extractStream_some_elim h
  simp only [continueGenerate, streamLoop_fst_nil, streamLoop_found_nil]
  rw [if_pos (hasMarker_of_findSub hi)]
  simp only [hi]
  rw [hq, if_neg hne]

/-- A non-terminal streaming start: initial write, then overwrite with the
assistant turn appended. -/
theorem start_stream_cont {m : Text} {cid : Nat} {chunks : List Text} {db : Store}
    (h : extractStream chunks.flatten = none) :
    start_inquiry_stream m cid chunks db =
      ((streamLoop cid chunks [] false).2.2 ++ [Event.done cid chunks.flatten],
       [Mut.write cid [sysMsg, (Role.user, m)],
        Mut.write cid ([sysMsg, (Role.user, m)] ++ [(Role.assistant, chunks.flatten)])]) := by
  simp only [start_inquiry_stream, streamLoop_fst_nil, streamLoop_found_nil]
  by_cases hm : hasMarker chunks.flatten = true
  · rw [if_pos hm]
    obtain ⟨i, hi⟩ := findSub_of_hasMarker hm
    simp only [hi]
    rw [if_pos (streamQuery_nil_of_none hi h)]
  · rw [if_neg hm]

/-- A terminal streaming start: initial write, then a guarded delete (the
guard reads the store right after the initial write, so it always fires). -/
theorem start_stream_final {m : Text} {cid : Nat} {chunks : List Text} {db : Store}
    {q : Text} (h : extractStream chunks.flatten = some q) :
    start_inquiry_stream m cid chunks db =
      ((streamLoop cid chunks [] false).2.2 ++ [Event.finalQuery (fmtFinal q)],
       [Mut.write cid [sysMsg, (Role.user, m)], Mut.del cid]) := by
  obtain ⟨i, hi, hq, hne⟩ := extractStream_some_elim h
  simp only [start_inquiry_stream, streamLoop_fst_nil, streamLoop_found_nil]
  rw [if_pos (hasMarker_of_findSub hi)]
  simp only [hi]
  rw [hq, if_neg hne]
  simp [applyMut, setStore_self]

theorem continue_inquiry_notFound {db : Store} {cid : Nat} {answer : Text}
    {llm : Log → Except Text Text} (h : db cid = none) :
    continue_inquiry db cid answer llm =
      (⟨none, none, some "Error: Conversation not found.".data⟩, db) := by
  simp only [continue_inquiry, h]

theorem continue_inquiry_error {db : Store} {cid : Nat} {answer e : Text} {log : Log}
    {llm : Log → Except Text Text} (hdb : db cid = some log)
    (hllm : llm (log ++ [(Role.user, answer)]) = Except.error e) :
    continue_inquiry db cid answer llm =
      (⟨none, none, some ("Error: ".data ++ e)⟩,
       setStore db cid (log ++ [(Role.user, answer)])) := by
  simp only [continue_inquiry, hdb, hllm]

theorem continue_inquiry_final {db : Store} {cid : Nat} {answer reply q : Text}
    {log : Log} {llm : Log → Except Text Text} (hdb : db cid = some log)
    (hllm : llm (log ++ [(Role.user, answer)]) = Except.ok reply)
    (hext : continueBlockingExtract reply = some q) :
    continue_inquiry db cid answer llm =
      (⟨none, none, some (fmtFinal q)⟩,
       delStore (setStore db cid (log ++ [(Role.user, answer)])) cid) := by
  simp only [continue_inquiry, hdb, hllm, hext]
  rw [if_pos (by rw [setStore_self]; rfl)]

theorem continue_inquiry_cont {db : Store} {cid : Nat} {answer reply : Text}
    {log : Log} {llm : Log → Except Text Text} (hdb : db cid = some log)
    (hllm : llm (log ++ [(Role.user, answer)]) = Except.ok reply)
    (hext : continueBlockingExtract reply = none) :
    continue_inquiry db cid answer llm =
      (⟨some cid, some reply, none⟩,
       setStore (setStore db cid (log ++ [(Role.user, answer)])) cid
         ((log ++ [(Role.user, answer)]) ++ [(Role.assistant, reply)])) := by
  simp only [continue_inquiry, hdb, hllm, hext]

theorem continue_stream_notFound {db : Store} {cid : Nat} {answer : Text}
    {llmS : Log → Except Text (List Text)} (h : db cid = none) :
    continue_inquiry_stream db cid answer llmS =
      ([Event.error "Conversation not found.".data], db, none) := by
  simp only [continue_inquiry_stream, h]

/-- A model invocation that raises when streaming starts escapes the
generator uncaught: no events (in particular no error event), store
untouched. -/
theorem continue_stream_raised {db : Store} {cid : Nat} {answer e : Text} {h0 : Log}
    {llmS : Log → Except Text (List Text)} (hdb : db cid = some h0)
    (hllm : llmS (h0 ++ [(Role.user, answer)]) = Except.error e) :
    continue_inquiry_stream db cid answer llmS = ([], db, some e) := by
  simp only [continue_inquiry_stream, hdb, hllm]

theorem continue_stream_ok {db : Store} {cid : Nat} {answer : Text} {h0 : Log}
    {chunks : List Text} {llmS : Log → Except Text (List Text)}
    (hdb : db cid = some h0)
    (hllm : llmS (h0 ++ [(Role.user, answer)]) = Except.ok chunks) :
    continue_inquiry_stream db cid answer llmS =
      ((continueGenerate cid (h0 ++ [(Role.user, answer)]) chunks db).1,
       (continueGenerate cid (h0 ++ [(Role.user, answer)]) chunks db).2, none) := by
  simp only [continue_inquiry_stream, hdb, hllm]

/-- On a newline-free post-marker remainder the streaming candidate is the
stripped remainder with closing-phrase truncation applied. -/
theorem streamQuery_no_nl {full : Text} {i : Nat}
    (hnl : ∀ c ∈ full.drop (i + marker.length), c ≠ '\n') :
    streamQuery full i = closingTrunc (strip (full.drop (i + marker.length))) := by
  simp only [streamQuery]
  rw [show List.dropWhile isWS (full.drop (i + marker.length)) =
        lstrip (full.drop (i + marker.length)) from rfl, strip_lstrip]
  have hnl' : ∀ c ∈ strip (full.drop (i + marker.length)), c ≠ '\n' :=
    fun c hc => hnl c (mem_strip hc)
  rw [splitOnNN_no_nl _ [] hnl']
  simp only [List.reverse_nil, List.nil_append]
  rw [strip_strip]

/-! ## Claim C1 -/

/-- C1 (amended): over the same reply text, the blocking continue
extraction and the streaming extraction agree — they are both terminal
with the same refined-query string — whenever the text after the marker's
first occurrence contains no newline, is nonempty after trimming, and
contains no closing phrase.  (As stated for every reply, the claim is
false: see the counterexample, where the two extractions return different
strings because only the streaming one truncates closing phrases; they
also differ on multi-line and on whitespace-only remainders.) -/
theorem C1_agree_single_line (reply : Text) (i : Nat)
    (hfind : findSub marker (lower reply) = some i)
    (hnl : ∀ c ∈ reply.drop (i + marker.length), c ≠ '\n')
    (hne : strip (reply.drop (i + marker.length)) ≠ [])
    (hph : ∀ p ∈ closingPhrases,
      findSub p (lower (strip (reply.drop (i + marker.length)))) = none) :
    extractStream reply = some (strip (reply.drop (i + marker.length))) ∧
    continueBlockingExtract reply = some (strip (reply.drop (i + marker.length))) := by
  have hq : streamQuery reply i = strip (reply.drop (i + marker.length)) := by
    rw [streamQuery_no_nl hnl, closingTrunc, closingTruncGo_of_none _ _ hph]
  constructor
  · rw [extractStream, if_pos (hasMarker_of_findSub hfind)]
    simp only [hfind]
    rw [hq, if_neg hne]
  · rw [continueBlockingExtract, if_pos (hasMarker_of_findSub hfind)]
    have hsuf : reply.drop (i + marker.length) ≠ [] := by
      intro h0
      exact hne (by rw [h0]; rfl)
    rw [searchPattern_eq hfind hsuf, restMatch_no_nl hnl (lstrip_ne_nil_of_strip hne)]
    have hfl : strip (firstLine (strip (lstrip (reply.drop (i + marker.length))))) =
        strip (reply.drop (i + marker.length)) := by
      rw [strip_lstrip, firstLine_no_nl (fun c hc => hnl c (mem_strip hc)), strip_strip]
    simpa using hfl

/-- C1 witness: on the reply "Here's your refined query: Fix my bug" both
extractions are terminal with query "Fix my bug". -/
theorem C1_agree_witness :
    extractStream "Here's your refined query: Fix my bug".data =
      some "Fix my bug".data ∧
    continueBlockingExtract "Here's your refined query: Fix my bug".data =
      some "Fix my bug".data := by
  have h := C1_agree_single_line "Here's your refined query: Fix my bug".data 0
    (by decide) (by decide) (by decide) (by decide)
  exact ⟨by rw [h.1]; decide, by rw [h.2]; decide⟩

/-- C1 counterexample: on the reply
"Here's your refined query: Fix my bug. Hope this helps!" both paths are
terminal but the streaming extraction truncates the closing phrase while
the blocking extraction keeps it, so the refined-query strings differ. -/
theorem C1_divergence :
    extractStream "Here's your refined query: Fix my bug. Hope this helps!".data =
      some "Fix my bug.".data ∧
    continueBlockingExtract
        "Here's your refined query: Fix my bug. Hope this helps!".data =
      some "Fix my bug. Hope this helps!".data ∧
    ("Fix my bug.".data : Text) ≠ "Fix my bug. Hope this helps!".data := by
  exact ⟨by decide, by decide, by decide⟩

/-! ## Claim C3 -/

/-- The closing-phrase loop truncates at the first occurrence of the first
phrase in LIST order that is present — not at the earliest occurrence by
position in the text. -/
theorem closingTruncGo_eq_find : ∀ (ps : List Text) (q : Text),
    closingTruncGo ps q =
      (match ps.find? (fun p => containsSub p (lower q)) with
       | some p => strip (q.take ((findSub p (lower q)).getD 0))
       | none => q)
  | [], _ => rfl
  | p :: ps, q => by
    rw [closingTruncGo]
    rcases hf : findSub p (lower q) with _ | idx
    · rw [List.find?_cons_of_neg _ (by simp [containsSub, hf])]
      exact closingTruncGo_eq_find ps q
    · rw [List.find?_cons_of_pos _ (by simp [containsSub, hf])]
      simp [hf]

/-- C3 (amended): the Extraction Engine checks the closing phrases in the
fixed list order "hope this helps", "does that help", "hope that helps",
"let me know", "hope this", "does that", and truncates the candidate
strictly before the first occurrence of the FIRST phrase in that list
order that is present (then trims); phrases occurring earlier in the text
but later in the list do not win.  (The claim's earliest-by-position rule
is refuted by the counterexample.) -/
theorem C3_list_order_truncation (q : Text) :
    closingTrunc q =
      (match closingPhrases.find? (fun p => containsSub p (lower q)) with
       | some p => strip (q.take ((findSub p (lower q)).getD 0))
       | none => q) :=
  closingTruncGo_eq_find closingPhrases q

/-- C3 counterexample: in "Q let me know more hope this helps" the phrase
"let me know" occurs first by position (index 2), yet the code truncates at
"hope this helps" (index 19) because that phrase comes first in the list,
yielding "Q let me know more" where the claim's earliest-occurrence rule
yields "Q". -/
theorem C3_counterexample :
    closingTrunc "Q let me know more hope this helps".data =
      "Q let me know more".data ∧
    claimEarliestTrunc "Q let me know more hope this helps".data = "Q".data ∧
    closingTrunc "Q let me know more hope this helps".data ≠
      claimEarliestTrunc "Q let me know more hope this helps".data ∧
    findSub "let me know".data (lower "Q let me know more hope this helps".data) =
      some 2 ∧
    findSub "hope this helps".data
        (lower "Q let me know more hope this helps".data) = some 19 := by
  exact ⟨by decide, by decide, by decide, by decide, by decide⟩

/-! ## Claim C8 -/

/-- C8 (confirmed): a reply without the marker phrase (case-insensitively)
is non-terminal on every path, and the full reply text is returned
verbatim: the blocking continue answers {conversation_id, question: reply},
and the last event of both streaming generators — the continue generator
(src/main.py line 269) and the start generator (line 165) — is
done(cid, reply). -/
theorem C8_no_marker_verbatim (reply : Text) (h : hasMarker reply = false) :
    extractStream reply = none ∧
    continueBlockingExtract reply = none ∧
    (∀ (db : Store) (cid : Nat) (answer : Text) (log : Log)
        (llm : Log → Except Text Text),
      db cid = some log → llm (log ++ [(Role.user, answer)]) = Except.ok reply →
      (continue_inquiry db cid answer llm).1 = ⟨some cid, some reply, none⟩) ∧
    (∀ (cid : Nat) (history : Log) (chunks : List Text) (dbEnd : Store),
      chunks.flatten = reply →
      (continueGenerate cid history chunks dbEnd).1.getLast? =
        some (Event.done cid reply)) ∧
    (∀ (m : Text) (cid : Nat) (chunks : List Text) (db : Store),
      chunks.flatten = reply →
      (start_inquiry_stream m cid chunks db).1.getLast? =
        some (Event.done cid reply)) := by
  have hex : extractStream reply = none := by
    rw [extractStream, if_neg (by simp [h])]
  have hbl : continueBlockingExtract reply = none := by
    rw [continueBlockingExtract, if_neg (by simp [h])]
  refine ⟨hex, hbl, ?_, ?_, ?_⟩
  · intro db cid answer log llm hdb hllm
    rw [continue_inquiry_cont hdb hllm hbl]
  · intro cid history chunks dbEnd hflat
    rw [continueGenerate_cont (by rw [hflat]; exact hex), hflat]
    simp
  · intro m cid chunks db hflat
    rw [start_stream_cont (by rw [hflat]; exact hex), hflat]
    simp

/-- C8 witness: a marker-free reply is echoed verbatim by the blocking
continue. -/
theorem C8_witness :
    (continue_inquiry dbEx 0 "hi2".data (fun _ => Except.ok "Next question?".data)).1 =
      ⟨some 0, some "Next question?".data, none⟩ :=
  (C8_no_marker_verbatim "Next question?".data (by decide)).2.2.1
    dbEx 0 "hi2".data histEx _ rfl rfl

/-! ## Claim C6 -/

/-- C6 (confirmed): on a non-terminal continue, the reply is appended as an
assistant turn and the entry is overwritten only if it still exists at
write time — the streaming generator re-checks the store it sees at
completion time (`dbEnd`), so a concurrently deleted id is not re-created —
and every other id's entry is untouched.  The blocking continue (which has
no suspension point between its existence check and its write) appends the
user and assistant turns to the looked-up entry, which still exists at
write time. -/
theorem C6_nonterminal_update :
    (∀ (cid : Nat) (history : Log) (chunks : List Text) (dbEnd : Store),
      extractStream chunks.flatten = none →
      ((continueGenerate cid history chunks dbEnd).2 cid =
        if (dbEnd cid).isSome then some (history ++ [(Role.assistant, chunks.flatten)])
        else none) ∧
      (∀ k, k ≠ cid → (continueGenerate cid history chunks dbEnd).2 k = dbEnd k)) ∧
    (∀ (db : Store) (cid : Nat) (answer reply : Text) (log : Log)
        (llm : Log → Except Text Text),
      db cid = some log → llm (log ++ [(Role.user, answer)]) = Except.ok reply →
      continueBlockingExtract reply = none →
      (db cid).isSome = true ∧
      (continue_inquiry db cid answer llm).2 cid =
        some (log ++ [(Role.user, answer), (Role.assistant, reply)]) ∧
      (∀ k, k ≠ cid → (continue_inquiry db cid answer llm).2 k = db k)) := by
  constructor
  · intro cid history chunks dbEnd h
    rw [continueGenerate_cont h]
    constructor
    · rcases hs : (dbEnd cid).isSome with _ | _
      · simp only [Bool.false_eq_true, if_false]
        exact Option.not_isSome_iff_eq_none.mp (by simp [hs])
      · simp only [if_true]
        exact setStore_self dbEnd cid _
    · intro k hk
      rcases hs : (dbEnd cid).isSome with _ | _
      · simp
      · simp only [if_true]
        exact setStore_ne dbEnd _ hk
  · intro db cid answer reply log llm hdb hllm hext
    rw [continue_inquiry_cont hdb hllm hext]
    dsimp only
    refine ⟨by simp [hdb], ?_, ?_⟩
    · rw [setStore_self]
      simp
    · intro k hk
      rw [setStore_ne _ _ hk, setStore_ne _ _ hk]

/-- C6 witness: a concrete non-terminal blocking continue overwrites the
entry with the appended log. -/
theorem C6_witness :
    (continue_inquiry dbEx 0 "a".data (fun _ => Except.ok "Q2?".data)).2 0 =
      some (histEx ++ [(Role.user, "a".data), (Role.assistant, "Q2?".data)]) :=
  (C6_nonterminal_update.2 dbEx 0 "a".data "Q2?".data histEx _ rfl rfl (by decide)).2.1

/-! ## Claim C7 -/

/-- C7 (confirmed): a terminal turn deletes the conversation id — the
delete is guarded, so it succeeds even if the entry is already gone — other
entries are untouched, and a subsequent continue on that id (or any absent
id) gets the NotFound result, which depends only on the id's absence, so a
deleted id is indistinguishable from one that never existed. -/
theorem C7_terminal_delete :
    (∀ (cid : Nat) (history : Log) (chunks : List Text) (dbEnd : Store) (q : Text),
      extractStream chunks.flatten = some q →
      (continueGenerate cid history chunks dbEnd).2 cid = none ∧
      (∀ k, k ≠ cid → (continueGenerate cid history chunks dbEnd).2 k = dbEnd k) ∧
      (continueGenerate cid history chunks dbEnd).1.getLast? =
        some (Event.finalQuery (fmtFinal q))) ∧
    (∀ (db : Store) (cid : Nat) (answer reply q : Text) (log : Log)
        (llm : Log → Except Text Text),
      db cid = some log → llm (log ++ [(Role.user, answer)]) = Except.ok reply →
      continueBlockingExtract reply = some q →
      (continue_inquiry db cid answer llm).2 cid = none ∧
      (∀ k, k ≠ cid → (continue_inquiry db cid answer llm).2 k = db k)) ∧
    (∀ (db : Store) (cid : Nat) (answer : Text) (llm : Log → Except Text Text),
      db cid = none →
      continue_inquiry db cid answer llm =
        (⟨none, none, some "Error: Conversation not found.".data⟩, db)) ∧
    (∀ (db : Store) (cid : Nat) (answer : Text)
        (llmS : Log → Except Text (List Text)),
      db cid = none →
      continue_inquiry_stream db cid answer llmS =
        ([Event.error "Conversation not found.".data], db, none)) := by
  refine ⟨?_, ?_, ?_, ?_⟩
  · intro cid history chunks dbEnd q h
    rw [continueGenerate_final h]
    refine ⟨?_, ?_, by simp⟩
    · rcases hs : (dbEnd cid).isSome with _ | _
      · simp only [Bool.false_eq_true, if_false]
        exact Option.not_isSome_iff_eq_none.mp (by simp [hs])
      · simp only [if_true]
        exact delStore_self dbEnd cid
    · intro k hk
      rcases hs : (dbEnd cid).isSome with _ | _
      · simp
      · simp only [if_true]
        exact delStore_ne dbEnd hk
  · intro db cid answer reply q log llm hdb hllm hext
    rw [continue_inquiry_final hdb hllm hext]
    dsimp only
    exact ⟨delStore_self _ _, fun k hk => by
      rw [delStore_ne _ hk, setStore_ne _ _ hk]⟩
  · intro db cid answer llm h
    exact continue_inquiry_notFound h
  · intro db cid answer llmS h
    exact continue_stream_notFound h

/-- C7 witness: a concrete terminal blocking continue removes the entry. -/
theorem C7_witness :
    (continue_inquiry dbEx 0 "a".data
        (fun _ => Except.ok "Here's your refined query: Done".data)).2 0 = none :=
  (C7_terminal_delete.2.1 dbEx 0 "a".data
    "Here's your refined query: Done".data "Done".data histEx _ rfl rfl (by decide)).1

/-! ## Claim C2 -/

/-- C2 (amended): neither half of the claim survives in full.  On the
blocking continue a model-invocation failure IS caught and reported as an
error result, but the store is NOT what it was before the call: line 283
binds `history` to the stored list itself, so the appended user turn stays
visible in the stored log (only that id's entry changes; see the
counterexample).  On the streaming continue the store IS left exactly as
before (the handler copies the list and the generator writes only after
the chunk loop), but a failure raised by the model invocation is NOT
caught: `llm.astream` is iterated inside `generate`, after the handler —
and its try/except of line 272 — have finished, so the exception escapes
with no error event.  Retrying cannot raise on either path, but on the
blocking path it appends the user turn again. -/
theorem C2_error_behavior (db : Store) (cid : Nat) (answer e : Text) (log : Log)
    (hdb : db cid = some log) :
    (∀ llm : Log → Except Text Text,
      llm (log ++ [(Role.user, answer)]) = Except.error e →
      (continue_inquiry db cid answer llm).1 =
        ⟨none, none, some ("Error: ".data ++ e)⟩ ∧
      (continue_inquiry db cid answer llm).2 cid =
        some (log ++ [(Role.user, answer)]) ∧
      (∀ k, k ≠ cid → (continue_inquiry db cid answer llm).2 k = db k)) ∧
    (∀ llmS : Log → Except Text (List Text),
      llmS (log ++ [(Role.user, answer)]) = Except.error e →
      continue_inquiry_stream db cid answer llmS = ([], db, some e)) := by
  constructor
  · intro llm hllm
    rw [continue_inquiry_error hdb hllm]
    dsimp only
    exact ⟨rfl, setStore_self db cid _, fun k hk => setStore_ne db _ hk⟩
  · intro llmS hllm
    exact continue_stream_raised hdb hllm

/-- C2 witness: a failing model call on the streaming continue emits no
events, leaves the store unchanged, and escapes uncaught. -/
theorem C2_witness :
    continue_inquiry_stream dbEx 0 "a".data (fun _ => Except.error "boom".data) =
      ([], dbEx, some "boom".data) :=
  (C2_error_behavior dbEx 0 "a".data "boom".data histEx rfl).2 _ rfl

/-- C2 counterexample: on the blocking continue a failing model call is
caught and reported, but the stored log for the id is NOT what it was
before the call: the just-appended user turn ("student") is visible in the
store, so the claim's no-partial-update guarantee fails. -/
theorem C2_partial_update :
    (continue_inquiry dbEx 0 "student".data (fun _ => Except.error "boom".data)).1 =
      ⟨none, none, some "Error: boom".data⟩ ∧
    (continue_inquiry dbEx 0 "student".data (fun _ => Except.error "boom".data)).2 0 =
      some (histEx ++ [(Role.user, "student".data)]) ∧
    some (histEx ++ [(Role.user, "student".data)]) ≠ dbEx 0 := by
  refine ⟨by decide, ?_, ?_⟩
  · have hdb : dbEx 0 = some histEx := rfl
    have hllm : (fun _ : Log => (Except.error "boom".data : Except Text Text))
        (histEx ++ [(Role.user, "student".data)]) = Except.error "boom".data := rfl
    rw [continue_inquiry_error hdb hllm]
    dsimp only
    exact setStore_self dbEx 0 _
  · intro h
    rw [show dbEx 0 = some histEx from rfl] at h
    injection h with h'
    have := congrArg List.length h'
    simp at this

/-! ## Claim C9 -/

/-- C9 (amended): in the streaming operations, a reply whose marker is
present but whose candidate query is empty after truncation yields a
non-terminal turn — the last event is done, no delete happens, the entry is
overwritten like any non-final turn.  The blocking continue instead treats
such a reply as terminal: it deletes the entry and returns the refined
query "User wants to say this: " with nothing after it (see the
counterexample). -/
theorem C9_stream_degrade (full : Text) (i : Nat)
    (hfind : findSub marker (lower full) = some i)
    (hempty : streamQuery full i = []) :
    extractStream full = none ∧
    (∀ (m : Text) (cid : Nat) (chunks : List Text) (db : Store),
      chunks.flatten = full →
      (start_inquiry_stream m cid chunks db).1.getLast? =
        some (Event.done cid full) ∧
      (start_inquiry_stream m cid chunks db).2 =
        [Mut.write cid [sysMsg, (Role.user, m)],
         Mut.write cid ([sysMsg, (Role.user, m)] ++ [(Role.assistant, full)])]) ∧
    (∀ (cid : Nat) (history : Log) (chunks : List Text) (dbEnd : Store),
      chunks.flatten = full →
      (continueGenerate cid history chunks dbEnd).1.getLast? =
        some (Event.done cid full) ∧
      ((dbEnd cid).isSome = true →
        (continueGenerate cid history chunks dbEnd).2 cid =
          some (history ++ [(Role.assistant, full)]))) := by
  have hex : extractStream full = none := by
    rw [extractStream, if_pos (hasMarker_of_findSub hfind)]
    simp only [hfind]
    rw [if_pos hempty]
  refine ⟨hex, ?_, ?_⟩
  · intro m cid chunks db hflat
    rw [start_stream_cont (by rw [hflat]; exact hex), hflat]
    exact ⟨by simp, rfl⟩
  · intro cid history chunks dbEnd hflat
    rw [continueGenerate_cont (by rw [hflat]; exact hex), hflat]
    refine ⟨by simp, fun hs => ?_⟩
    dsimp only
    rw [if_pos hs]
    exact setStore_self dbEnd cid _

/-- C9 witness: the spec's own example reply with an empty remainder is
non-terminal for the streaming extraction. -/
theorem C9_witness :
    extractStream "Here's your refined query: ".data = none :=
  (C9_stream_degrade "Here's your refined query: ".data 0 (by decide) (by decide)).1

/-- C9 counterexample: the blocking continue on the reply
"Here's your refined query: " (empty remainder) IS terminal: it returns
refined_query "User wants to say this: " and deletes the entry, instead of
degrading to a non-final turn as the claim states. -/
theorem C9_blocking_empty_terminal :
    (continue_inquiry dbEx 0 "x".data
        (fun _ => Except.ok "Here's your refined query: ".data)).1 =
      ⟨none, none, some "User wants to say this: ".data⟩ ∧
    (continue_inquiry dbEx 0 "x".data
        (fun _ => Except.ok "Here's your refined query: ".data)).2 0 = none := by
  exact ⟨by decide, by decide⟩

/-! ## Claim C5 -/

/-- C5 (amended): the blocking start always performs exactly one store
mutation — a single write — and never deletes, because it runs no
extraction at all (even a marker-bearing first reply is stored as an
ordinary turn).  The streaming start mutates the store exactly twice: an
initial write of the fresh two-turn log before streaming, then on
completion either an overwrite with the assistant turn appended (non-final)
or a guarded delete (final); the net effect of a final first reply is that
no entry remains.  (The claim's "exactly once" is refuted by the
counterexample.) -/
theorem C5_mutation_trace :
    (∀ (m : Text) (cid : Nat) (reply : Text),
      (start_inquiry m cid reply).2 =
        [Mut.write cid [sysMsg, (Role.user, m), (Role.assistant, reply)]]) ∧
    (∀ (m : Text) (cid : Nat) (chunks : List Text) (db : Store),
      extractStream chunks.flatten = none →
      (start_inquiry_stream m cid chunks db).2 =
        [Mut.write cid [sysMsg, (Role.user, m)],
         Mut.write cid ([sysMsg, (Role.user, m)] ++ [(Role.assistant, chunks.flatten)])]) ∧
    (∀ (m : Text) (cid : Nat) (chunks : List Text) (db : Store) (q : Text),
      extractStream chunks.flatten = some q →
      (start_inquiry_stream m cid chunks db).2 =
        [Mut.write cid [sysMsg, (Role.user, m)], Mut.del cid] ∧
      applyTrace db (start_inquiry_stream m cid chunks db).2 cid = none) := by
  refine ⟨fun m cid reply => rfl, ?_, ?_⟩
  · intro m cid chunks db h
    rw [start_stream_cont h]
  · intro m cid chunks db q h
    rw [start_stream_final h]
    refine ⟨rfl, ?_⟩
    simp [applyTrace, applyMut, delStore]

/-- C5 witness: a terminal streaming start's trace is the initial write
followed by the delete. -/
theorem C5_witness :
    (start_inquiry_stream "hi".data 0
        ["Here's your refined query: Fix my bug".data] dbEmpty).2 =
      [Mut.write 0 [sysMsg, (Role.user, "hi".data)], Mut.del 0] :=
  (C5_mutation_trace.2.2 "hi".data 0 _ dbEmpty "Fix my bug".data (by decide)).1

/-- C5 counterexample: a streaming start whose single chunk is a final
reply emits a final-query event yet mutates the store twice (initial write
then delete), not "exactly once" as claimed. -/
theorem C5_final_start_two_mutations :
    (start_inquiry_stream "hi".data 0
        ["Here's your refined query: Fix my bug".data] dbEmpty).1 =
      [Event.finalQuery "User wants to say this: Fix my bug".data] ∧
    (start_inquiry_stream "hi".data 0
        ["Here's your refined query: Fix my bug".data] dbEmpty).2.length = 2 := by
  exact ⟨by decide, by decide⟩

/-! ## Claim C4 -/

/-- C4 (amended): once the marker has appeared in the accumulated buffer no
further token event is ever emitted; the concatenation of the emitted token
contents is a prefix of the final concatenated text that never contains the
marker — so no emitted token reaches the END of the marker occurrence
(its length stays below marker-start + marker-length) — but an emitted
token MAY include a proper prefix of the marker occurrence itself, since a
chunk is forwarded whenever the buffer including it does not yet contain
the whole marker (see the counterexample). -/
theorem C4_tokens_before_marker :
    (∀ (cid : Nat) (chunks : List Text) (full0 : Text),
      (streamLoop cid chunks full0 true).2.2 = []) ∧
    (∀ (cid : Nat) (chunks : List Text),
      hasMarker (tokText (streamLoop cid chunks [] false).2.2) = false) ∧
    (∀ (cid : Nat) (chunks : List Text),
      ∃ rest, chunks.flatten = tokText (streamLoop cid chunks [] false).2.2 ++ rest) ∧
    (∀ (cid : Nat) (chunks : List Text) (i : Nat),
      findSub marker (lower chunks.flatten) = some i →
      (tokText (streamLoop cid chunks [] false).2.2).length < i + marker.length) := by
  have key : ∀ (cid : Nat) (chunks : List Text),
      (∃ rest, chunks.flatten =
        tokText (streamLoop cid chunks [] false).2.2 ++ rest) ∧
      hasMarker (tokText (streamLoop cid chunks [] false).2.2) = false := by
    intro cid chunks
    obtain ⟨r, hr, hm⟩ := streamLoop_toks_spec cid chunks [] hasMarker_nil
    rw [List.nil_append] at hr hm
    rw [List.nil_append] at hr
    exact ⟨⟨r, hr⟩, hm⟩
  refine ⟨streamLoop_true_toks, fun cid chunks => (key cid chunks).2,
    fun cid chunks => (key cid chunks).1, ?_⟩
  intro cid chunks i hi
  obtain ⟨⟨rest, hr⟩, hm⟩ := key cid chunks
  by_contra hge
  have hL : i + marker.length ≤
      (tokText (streamLoop cid chunks [] false).2.2).length := by omega
  have htake := hasMarker_take hi hL
  rw [hr, List.take_left] at htake
  rw [htake] at hm
  cases hm

/-- C4 witness: in the two-chunk stream whose marker starts at index 3 of
the final text, everything the client was shown stops short of the
marker's end. -/
theorem C4_witness :
    (tokText (streamLoop 0
        ["AB here's your refined".data, " query: okay".data] [] false).2.2).length <
      3 + marker.length :=
  C4_tokens_before_marker.2.2.2 0
    ["AB here's your refined".data, " query: okay".data] 3 (by decide)

/-- C4 counterexample: the marker occurrence starts at index 3 of the final
text, yet the emitted token event carries the 22-character fragment
"AB here's your refined", which includes text at and after position 3 —
the claim that no emitted token references text at or after the marker is
false when the marker straddles a chunk boundary. -/
theorem C4_token_overlaps_marker :
    (start_inquiry_stream "m".data 0
        ["AB here's your refined".data, " query: okay".data] dbEmpty).1 =
      [Event.token "AB here's your refined".data 0,
       Event.finalQuery "User wants to say this: okay".data] ∧
    findSub marker
        (lower (["AB here's your refined".data, " query: okay".data] :
          List Text).flatten) = some 3 ∧
    ("AB here's your refined".data : Text).length = 22 ∧ (3 : Nat) < 22 := by
  exact ⟨by decide, by decide, by decide, by decide⟩

/-! ## Claim C10 -/

/-- C10 (confirmed): the blocking continue populates refined_query in
exactly three cases — unknown id (the literal "Error: Conversation not
found."), model failure ("Error: " followed by the message), terminal turn
("User wants to say this: " followed by the query) — with conversation_id
and question absent in all three; on the remaining (non-terminal) case
refined_query is absent and conversation_id/question are populated. -/
theorem C10_response_shape (db : Store) (cid : Nat) (answer : Text)
    (llm : Log → Except Text Text) :
    (db cid = none →
      (continue_inquiry db cid answer llm).1 =
        ⟨none, none, some "Error: Conversation not found.".data⟩) ∧
    (∀ log e, db cid = some log →
      llm (log ++ [(Role.user, answer)]) = Except.error e →
      (continue_inquiry db cid answer llm).1 =
        ⟨none, none, some ("Error: ".data ++ e)⟩ ∧
      ("Error: ".data : Text) <+: ("Error: ".data ++ e)) ∧
    (∀ log reply q, db cid = some log →
      llm (log ++ [(Role.user, answer)]) = Except.ok reply →
      continueBlockingExtract reply = some q →
      (continue_inquiry db cid answer llm).1 =
        ⟨none, none, some ("User wants to say this: ".data ++ q)⟩ ∧
      ("User wants to say this: ".data : Text) <+:
        ("User wants to say this: ".data ++ q)) ∧
    (∀ log reply, db cid = some log →
      llm (log ++ [(Role.user, answer)]) = Except.ok reply →
      continueBlockingExtract reply = none →
      (continue_inquiry db cid answer llm).1.refined_query = none ∧
      (continue_inquiry db cid answer llm).1.conversation_id = some cid ∧
      (continue_inquiry db cid answer llm).1.question = some reply) := by
  refine ⟨?_, ?_, ?_, ?_⟩
  · intro h
    rw [continue_inquiry_notFound h]
  · intro log e hdb hllm
    rw [continue_inquiry_error hdb hllm]
    exact ⟨rfl, List.prefix_append _ _⟩
  · intro log reply q hdb hllm hext
    rw [continue_inquiry_final hdb hllm hext]
    exact ⟨rfl, List.prefix_append _ _⟩
  · intro log reply hdb hllm hext
    rw [continue_inquiry_cont hdb hllm hext]
    exact ⟨rfl, rfl, rfl⟩

/-- C10 witness: a continue on an unknown id yields the literal not-found
error with conversation_id and question absent. -/
theorem C10_witness :
    (continue_inquiry dbEmpty 5 "a".data (fun _ => Except.ok "hi".data)).1 =
      ⟨none, none, some "Error: Conversation not found.".data⟩ :=
  (C10_response_shape dbEmpty 5 "a".data (fun _ => Except.ok "hi".data)).1 rfl

end Inquiry
